import Mathlib

/-
Verification of the autoemp planning-agent core against its specification.

The development shallowly embeds the two source modules:
  * background/agent/agents/planner.ts  (PlannerAgent.execute, plannerOutputSchema,
    executeWithServerPlan)
  * background/services/initialization.ts (InitializationService.ensureDefaultConfiguration)

External collaborators that the sources call but whose code is not part of the
repository snapshot (the `filterExternalContent` sanitizer from messages/utils,
the error-classification predicates from agents/errors.ts, the LLM `invoke`
boundary, the fetch transport and the storage stores) are modelled as explicit
oracle values or, where the spec describes their behaviour, as definitions
marked `Modelled from the spec`.

`execute` is embedded as a pure function from an environment (step index,
options, message history, planner config, a fetch oracle and an invoke oracle)
to a trace: the emitted lifecycle events, the log entries, call counters for
the two planning sources, and the step outcome (a returned AgentOutput or a
thrown classified error).
-/

namespace Autoemp

/-! ## Events and logs -/

inductive Actor
  | planner
deriving DecidableEq

inductive ExecutionState
  | stepStart
  | stepOk
  | stepFail
deriving DecidableEq

structure Event where
  actor : Actor
  state : ExecutionState
  message : String
deriving DecidableEq

inductive LogLevel
  | info
  | error
deriving DecidableEq

structure LogEntry where
  level : LogLevel
  message : String
deriving DecidableEq

instance instDecEqExcept {ε α : Type} [DecidableEq ε] [DecidableEq α] :
    DecidableEq (Except ε α) := fun a b =>
  match a, b with
  | Except.ok x, Except.ok y =>
      if h : x = y then isTrue (congrArg Except.ok h)
      else isFalse (fun hc => h (Except.ok.inj hc))
  | Except.error x, Except.error y =>
      if h : x = y then isTrue (congrArg Except.error h)
      else isFalse (fun hc => h (Except.error.inj hc))
  | Except.ok _, Except.error _ => isFalse (fun hc => Except.noConfusion hc)
  | Except.error _, Except.ok _ => isFalse (fun hc => Except.noConfusion hc)

def logInfo (m : String) : LogEntry := ⟨LogLevel.info, m⟩

def logError (m : String) : LogEntry := ⟨LogLevel.error, m⟩

/-! ## Errors and their classification (agents/errors.ts boundary) -/

/-- Modelled from the spec: the predicates `isAuthenticationError`,
`isBadRequestError`, `isAbortedError`, `isForbiddenError` live in
agents/errors.ts, which is not part of the repository snapshot. Per the spec
they are loose pattern-matches that an opaque error value may satisfy
simultaneously, so an error value is modelled as its message together with
which of the four patterns it satisfies. -/
structure ErrValue where
  message : String
  auth : Bool
  badRequest : Bool
  aborted : Bool
  forbidden : Bool
deriving DecidableEq

def isAuthenticationError (e : ErrValue) : Bool := e.auth

def isBadRequestError (e : ErrValue) : Bool := e.badRequest

def isAbortedError (e : ErrValue) : Bool := e.aborted

def isForbiddenError (e : ErrValue) : Bool := e.forbidden

/-- Modelled from the spec: the fixed user-facing message carried by
`ChatModelForbiddenError`; its exact text lives in agents/errors.ts. -/
def LLM_FORBIDDEN_ERROR_MESSAGE : String :=
  "Access to the requested model is forbidden"

/-- The typed failures thrown by the catch block of `execute`
(lines 147 to 155 of planner.ts). -/
inductive AgentError
  | chatModelAuth (msg : String)
  | chatModelBadRequest (msg : String)
  | requestCancelled (msg : String)
  | chatModelForbidden (msg : String)
deriving DecidableEq

inductive ErrorClass
  | auth
  | badRequest
  | cancelled
  | forbidden
  | generic
deriving DecidableEq

/-- The classification chain of the catch block in `PlannerAgent.execute`
(planner.ts lines 147 to 155): `isAuthenticationError`, then
`isBadRequestError`, then `isAbortedError`, then `isForbiddenError`,
else the generic branch. -/
def classifyError (e : ErrValue) : ErrorClass :=
  if isAuthenticationError e then ErrorClass.auth
  else if isBadRequestError e then ErrorClass.badRequest
  else if isAbortedError e then ErrorClass.cancelled
  else if isForbiddenError e then ErrorClass.forbidden
  else ErrorClass.generic

/-- Stated from the spec wording, for comparison with `classifyError`:
the classifications in their fixed priority order. -/
def specClassificationOrder : List (ErrorClass × (ErrValue → Bool)) :=
  [(ErrorClass.auth, isAuthenticationError),
   (ErrorClass.badRequest, isBadRequestError),
   (ErrorClass.cancelled, isAbortedError),
   (ErrorClass.forbidden, isForbiddenError)]

/-- Stated from the spec wording, for comparison with `classifyError`:
walk the priority list, first match wins, anything else is unclassified. -/
def specFirstMatch (e : ErrValue) : ErrorClass :=
  match specClassificationOrder.find? (fun p => p.snd e) with
  | some p => p.fst
  | none => ErrorClass.generic

/-! ## Planner output and sanitization -/

/-- The validated planner output (planner.ts lines 23 to 47). -/
structure PlannerOutput where
  observation : String
  challenges : String
  done : Bool
  next_steps : String
  final_answer : String
  reasoning : String
  web_task : Bool
deriving DecidableEq

/-- Modelled from the spec: markers denoting untrusted-origin content are
modelled as occurrences of a reserved marker character. -/
def externalContentMarkerChar : Char := Char.ofNat 57344

/-- Modelled from the spec: `filterExternalContent` (messages/utils, not part
of the repository snapshot) removes the markers that denote content from an
untrusted external source from a text, keeping everything else. -/
def filterExternalContent (s : String) : String :=
  String.mk (s.data.filter (fun c => c != externalContentMarkerChar))

/-- The cleaning step of `execute` (planner.ts lines 120 to 133): sanitize the
five free-text fields, keep everything else of the validated output. -/
def cleanPlan (o : PlannerOutput) : PlannerOutput :=
  { o with
    observation := filterExternalContent o.observation,
    challenges := filterExternalContent o.challenges,
    reasoning := filterExternalContent o.reasoning,
    final_answer := filterExternalContent o.final_answer,
    next_steps := filterExternalContent o.next_steps }

/-! ## The output schema (plannerOutputSchema, planner.ts lines 23 to 45) -/

/-- A raw JSON-like field value, as received from the server body or the
model. -/
inductive JsonValue
  | str (s : String)
  | bool (b : Bool)
  | num (n : Int)
  | null
deriving DecidableEq

/-- A raw output record before validation: the seven fields of the schema,
each an arbitrary JSON value. -/
structure RawRecord where
  observation : JsonValue
  challenges : JsonValue
  done : JsonValue
  next_steps : JsonValue
  final_answer : JsonValue
  reasoning : JsonValue
  web_task : JsonValue
deriving DecidableEq

/-- `z.string()`: a text field accepts exactly the strings. -/
def parseTextField (v : JsonValue) : Except String String :=
  match v with
  | JsonValue.str s => Except.ok s
  | _ => Except.error "Expected string"

/-- JavaScript `toLowerCase`, modelled character-wise. -/
def toLowerCase (s : String) : String :=
  String.mk (s.data.map Char.toLower)

/-- `z.union([z.boolean(), z.string().transform(...)])` for `done` and
`web_task` (planner.ts lines 26 to 33 and 37 to 44): a literal boolean is
accepted as-is; a string is lower-cased and compared with "true" and "false";
any other string throws `Invalid boolean string`; any other value fails the
union. -/
def parseBoolField (v : JsonValue) : Except String Bool :=
  match v with
  | JsonValue.bool b => Except.ok b
  | JsonValue.str s =>
      if toLowerCase s = "true" then Except.ok true
      else if toLowerCase s = "false" then Except.ok false
      else Except.error "Invalid boolean string"
  | _ => Except.error "Expected boolean or string"

/-- `plannerOutputSchema.parse`: validate each field in declaration order. -/
def plannerOutputSchema_parse (r : RawRecord) : Except String PlannerOutput := do
  let observation ← parseTextField r.observation
  let challenges ← parseTextField r.challenges
  let done ← parseBoolField r.done
  let next_steps ← parseTextField r.next_steps
  let final_answer ← parseTextField r.final_answer
  let reasoning ← parseTextField r.reasoning
  let web_task ← parseBoolField r.web_task
  Except.ok ⟨observation, challenges, done, next_steps, final_answer, reasoning, web_task⟩

/-! ## Messages and the vision strip (planner.ts lines 72 to 93) -/

inductive Role
  | system
  | human
  | ai
deriving DecidableEq

inductive ContentPart
  | text (s : String)
  | image (url : String)
deriving DecidableEq

inductive MessageContent
  | str (s : String)
  | parts (l : List ContentPart)
deriving DecidableEq

structure Message where
  role : Role
  content : MessageContent
deriving DecidableEq

def textOfPart : ContentPart → Option String
  | ContentPart.text s => some s
  | ContentPart.image _ => none

/-- The body of the loop of planner.ts lines 82 to 87: append the text of a
text segment, skip everything else. -/
def partStep (acc : String) (p : ContentPart) : String :=
  match p with
  | ContentPart.text s => acc ++ s
  | ContentPart.image _ => acc

/-- The loop of planner.ts lines 82 to 87: walk the segments in order,
append the text of each text segment, skip everything else. -/
def concatTextParts (l : List ContentPart) : String :=
  l.foldl partStep ""

/-- Lines 81 to 90: segmented content keeps only its concatenated text
segments; plain string content is taken as-is. -/
def stripImagesText : MessageContent → String
  | MessageContent.str s => s
  | MessageContent.parts l => concatTextParts l

/-- Line 92: the final assembled message is replaced by a fresh HumanMessage
carrying the stripped text. -/
def replaceLastWithStripped (pm : List Message) : List Message :=
  match pm.getLast? with
  | none => pm
  | some m => pm.dropLast ++ [⟨Role.human, MessageContent.str (stripImagesText m.content)⟩]

/-- Lines 72 to 93: the assembled planning input is the agent's own system
message followed by the history minus its first entry; when vision is globally
on but off for the planner, the final message is stripped. -/
def assemblePlannerMessages (useVision useVisionForPlanner : Bool)
    (systemMessage : Message) (messages : List Message) : List Message :=
  let pm := systemMessage :: messages.drop 1
  if !useVisionForPlanner && useVision then replaceLastWithStripped pm else pm

/-! ## Remote planning path (executeWithServerPlan, planner.ts lines 169 to 198) -/

structure PlannerConfig where
  useServerForFirstPlan : Option Bool := none
  serverPlanEndpoint : Option String := none
deriving DecidableEq

/-- The truthiness test `!endpoint` of line 171: absent and empty endpoints
are both falsy. -/
def endpointOf (cfg : Option PlannerConfig) : Option String :=
  match cfg with
  | none => none
  | some c =>
    match c.serverPlanEndpoint with
    | none => none
    | some s => if s = "" then none else some s

/-- `endpoint.replace` with a trailing-slash pattern (line 176): remove one
trailing slash when present. -/
def trimTrailingSlash (s : String) : String :=
  if s.endsWith "/" then s.dropRight 1 else s

def serverPlanRoute (endpoint : String) : String :=
  trimTrailingSlash endpoint ++ "/planner/ReplyMessage/Facebook"

/-- The response of the fetch boundary: HTTP ok flag, status, status text and
the parsed JSON body (which may itself fail to parse). -/
structure FetchResponse where
  ok : Bool
  status : Nat
  statusText : String
  jsonBody : Except ErrValue RawRecord
deriving DecidableEq

/-- The fetch transport oracle for one step: a network-level failure (which
carries the abort flag when the cancellation signal fired) or a response. -/
structure ServerEnv where
  fetchResult : Except ErrValue FetchResponse
deriving DecidableEq

/-- planner.ts lines 169 to 198: require a truthy endpoint, build the route,
issue a single GET, fail on non-ok status, parse the body through the output
schema. No retry happens inside this path. Returns the log entries produced
and the result or the thrown error. -/
def executeWithServerPlan (cfg : Option PlannerConfig) (sv : ServerEnv) :
    List LogEntry × Except ErrValue PlannerOutput :=
  match endpointOf cfg with
  | none => ([], Except.error ⟨"Server plan endpoint not configured", false, false, false, false⟩)
  | some ep =>
    let apiUrl := serverPlanRoute ep
    let fl := [logInfo ("Fetching plan from server: " ++ apiUrl)]
    match sv.fetchResult with
    | Except.error e => (fl, Except.error e)
    | Except.ok resp =>
      if resp.ok = false then
        (fl, Except.error
          ⟨"Server returned " ++ toString resp.status ++ ": " ++ resp.statusText,
           false, false, false, false⟩)
      else
        match resp.jsonBody with
        | Except.error e => (fl, Except.error e)
        | Except.ok raw =>
          match plannerOutputSchema_parse raw with
          | Except.error m => (fl, Except.error ⟨m, false, false, false, false⟩)
          | Except.ok out => (fl ++ [logInfo "Server plan received"], Except.ok out)

/-! ## The step outcome and the catch block -/

/-- The returned step outcome (agent/types.ts `AgentOutput` shape as used by
planner.ts lines 140 to 143 and 159 to 162). -/
structure AgentOutput where
  id : String
  result : Option PlannerOutput := none
  error : Option String := none
deriving DecidableEq

structure CatchOut where
  events : List Event
  logs : List LogEntry
  outcome : Except AgentError AgentOutput
deriving DecidableEq

/-- The catch block of `execute` (planner.ts lines 144 to 162): classified
errors are rethrown as typed failures with no event and no log; anything else
logs an application error, emits a step-fail event and returns an
error-bearing outcome whose error field is the bare message. -/
def catchHandler (e : ErrValue) : CatchOut :=
  match classifyError e with
  | ErrorClass.auth => ⟨[], [], Except.error (AgentError.chatModelAuth e.message)⟩
  | ErrorClass.badRequest => ⟨[], [], Except.error (AgentError.chatModelBadRequest e.message)⟩
  | ErrorClass.cancelled => ⟨[], [], Except.error (AgentError.requestCancelled e.message)⟩
  | ErrorClass.forbidden =>
      ⟨[], [], Except.error (AgentError.chatModelForbidden LLM_FORBIDDEN_ERROR_MESSAGE)⟩
  | ErrorClass.generic =>
      ⟨[⟨Actor.planner, ExecutionState.stepFail, "Planning failed: " ++ e.message⟩],
       [logError ("Planning failed: " ++ e.message)],
       Except.ok ⟨"planner", none, some e.message⟩⟩

/-- The classification a step outcome exhibits at the step boundary: a typed
thrown failure maps to its class, a returned outcome to the generic class. -/
def outcomeClass : Except AgentError AgentOutput → ErrorClass
  | Except.error (AgentError.chatModelAuth _) => ErrorClass.auth
  | Except.error (AgentError.chatModelBadRequest _) => ErrorClass.badRequest
  | Except.error (AgentError.requestCancelled _) => ErrorClass.cancelled
  | Except.error (AgentError.chatModelForbidden _) => ErrorClass.forbidden
  | Except.ok _ => ErrorClass.generic

/-! ## One step of PlannerAgent.execute -/

/-- The environment of one `execute` invocation: the execution context fields
the method reads, the immutable planner config, and the outcomes of the two
possible outbound calls (the fetch transport and the LLM `invoke`, which may
return a validated output, null, or throw). -/
structure ExecEnv where
  nSteps : Nat
  useVision : Bool
  useVisionForPlanner : Bool
  messages : List Message
  systemMessage : Message
  plannerConfig : Option PlannerConfig
  server : ServerEnv
  invokeResult : List Message → Except ErrValue (Option PlannerOutput)

/-- The assembled planning input of one invocation (planner.ts lines 72 to 93). -/
def plannerMessagesOf (env : ExecEnv) : List Message :=
  assemblePlannerMessages env.useVision env.useVisionForPlanner env.systemMessage env.messages

/-- The outcome of `this.invoke(plannerMessages)` for this invocation. -/
def invokeOutcome (env : ExecEnv) : Except ErrValue (Option PlannerOutput) :=
  env.invokeResult (plannerMessagesOf env)

/-- The guard of planner.ts lines 97 to 101: first step, truthy
`useServerForFirstPlan`, truthy `serverPlanEndpoint`. -/
def serverPlanCondition (env : ExecEnv) : Bool :=
  env.nSteps == 0 &&
    (match env.plannerConfig with
     | some c =>
         (c.useServerForFirstPlan == some true) &&
           (match c.serverPlanEndpoint with
            | some s => !(s == "")
            | none => false)
     | none => false)

/-- The outcome of the planning-source phase: logs, how many times each source
was called, and the model output resolution (an output, null, or a thrown
error). -/
structure PlanPhase where
  logs : List LogEntry
  serverCalls : Nat
  invokeCalls : Nat
  modelOutput : Except ErrValue (Option PlannerOutput)
deriving DecidableEq

/-- planner.ts lines 102 to 110: on server success take its output; on any
server failure log the error, log the fallback notice and call `invoke` once. -/
def serverPhaseAux (inv : Except ErrValue (Option PlannerOutput))
    (p : List LogEntry × Except ErrValue PlannerOutput) : PlanPhase :=
  match p.snd with
  | Except.ok out =>
      ⟨logInfo "Using server-based planning for first call" :: p.fst, 1, 0,
       Except.ok (some out)⟩
  | Except.error e =>
      ⟨(logInfo "Using server-based planning for first call" :: p.fst)
         ++ [logError ("Server planning failed: " ++ e.message),
             logInfo "Falling back to LLM-based planning"],
       1, 1, inv⟩

/-- planner.ts lines 96 to 113: choose the planning source. -/
def serverPhase (env : ExecEnv) : PlanPhase :=
  if serverPlanCondition env then
    serverPhaseAux (invokeOutcome env) (executeWithServerPlan env.plannerConfig env.server)
  else ⟨[], 0, 1, invokeOutcome env⟩

/-- The trace of one `execute` invocation. -/
structure ExecResult where
  events : List Event
  logs : List LogEntry
  serverCalls : Nat
  invokeCalls : Nat
  outcome : Except AgentError AgentOutput
deriving DecidableEq

def startEvent : Event := ⟨Actor.planner, ExecutionState.stepStart, "Planning..."⟩

/-- planner.ts lines 67 to 163: emit step-start, resolve the planning source,
fail on a null output, clean the output, emit step-ok with the final answer or
the next steps, return the result; any escaping error goes through the catch
block. -/
def execute (env : ExecEnv) : ExecResult :=
  let ph := serverPhase env
  match ph.modelOutput with
  | Except.ok (some out) =>
      let cleaned := cleanPlan out
      let msg := if cleaned.done then cleaned.final_answer else cleaned.next_steps
      ⟨[startEvent, ⟨Actor.planner, ExecutionState.stepOk, msg⟩],
       ph.logs ++ [logInfo "Planner output"],
       ph.serverCalls, ph.invokeCalls,
       Except.ok ⟨"planner", some cleaned, none⟩⟩
  | Except.ok none =>
      let c := catchHandler ⟨"Failed to validate planner output", false, false, false, false⟩
      ⟨startEvent :: c.events, ph.logs ++ c.logs, ph.serverCalls, ph.invokeCalls, c.outcome⟩
  | Except.error e =>
      let c := catchHandler e
      ⟨startEvent :: c.events, ph.logs ++ c.logs, ph.serverCalls, ph.invokeCalls, c.outcome⟩

/-! ## Trace helpers -/

def countState (st : ExecutionState) (evs : List Event) : Nat :=
  (evs.filter (fun ev => ev.state == st)).length

def countTerminal (evs : List Event) : Nat :=
  (evs.filter (fun ev =>
    ev.state == ExecutionState.stepOk || ev.state == ExecutionState.stepFail)).length

/-- Whether the LLM invoke oracle of an environment fails with an error that
the catch block rethrows as a typed failure. -/
def invokeClassified (env : ExecEnv) : Bool :=
  match invokeOutcome env with
  | Except.error e => !(classifyError e == ErrorClass.generic)
  | Except.ok _ => false

/-! ## InitializationService (initialization.ts lines 14 to 75) -/

/-- A write against the storage boundary performed by
`ensureDefaultConfiguration`. -/
inductive StoreWrite
  | setProvider (id : String)
  | setAgentModel (agent : String)
deriving DecidableEq

/-- The storage-boundary oracle for one `ensureDefaultConfiguration` run: the
outcome of reading the providers and of each of the three writes, any of which
may throw. -/
structure InitEnv where
  getAllProvidersResult : Except ErrValue (List String)
  setProviderResult : Except ErrValue Unit
  setPlannerModelResult : Except ErrValue Unit
  setNavigatorModelResult : Except ErrValue Unit
deriving DecidableEq

/-- The body of the try block (initialization.ts lines 15 to 70): read the
provider keys, return early when any exist, otherwise write the default
provider and the two agent models in order; the writes performed so far are
recorded, and the first thrown error escapes. -/
def ensureDefaultConfigurationBody (env : InitEnv) :
    List StoreWrite × Except ErrValue Unit :=
  match env.getAllProvidersResult with
  | Except.error e => ([], Except.error e)
  | Except.ok providers =>
    if providers.length > 0 then ([], Except.ok ())
    else
      match env.setProviderResult with
      | Except.error e => ([StoreWrite.setProvider "replyzy"], Except.error e)
      | Except.ok _ =>
        match env.setPlannerModelResult with
        | Except.error e =>
            ([StoreWrite.setProvider "replyzy", StoreWrite.setAgentModel "Planner"],
             Except.error e)
        | Except.ok _ =>
          match env.setNavigatorModelResult with
          | Except.error e =>
              ([StoreWrite.setProvider "replyzy", StoreWrite.setAgentModel "Planner",
                StoreWrite.setAgentModel "Navigator"],
               Except.error e)
          | Except.ok _ =>
              ([StoreWrite.setProvider "replyzy", StoreWrite.setAgentModel "Planner",
                StoreWrite.setAgentModel "Navigator"],
               Except.ok ())

/-- initialization.ts lines 14 to 75: the try body wrapped in the catch that
logs and deliberately does not rethrow. -/
def ensureDefaultConfiguration (env : InitEnv) : List StoreWrite × Except ErrValue Unit :=
  match ensureDefaultConfigurationBody env with
  | (ws, Except.error _) => (ws, Except.ok ())
  | (ws, Except.ok u) => (ws, Except.ok u)

/-! ## Concrete sample values for witnesses and counterexamples -/

def sampleSystemMessage : Message := ⟨Role.system, MessageContent.str "sys"⟩

def sampleOutput : PlannerOutput := ⟨"obs", "ch", false, "next", "fin", "rea", true⟩

def sampleNetErr : ErrValue := ⟨"network down", false, false, false, false⟩

def sampleAuthErr : ErrValue := ⟨"401 unauthorized", true, false, false, false⟩

def sampleAbortErr : ErrValue := ⟨"The operation was aborted", false, false, true, false⟩

def serverConfig : PlannerConfig := ⟨some true, some "https://x/"⟩

def failingServer : ServerEnv := ⟨Except.error sampleNetErr⟩

def abortingServer : ServerEnv := ⟨Except.error sampleAbortErr⟩

/-- Step 0 with the server path enabled; the fetch fails with a network error
and the LLM fallback throws an authentication-classified error. -/
def envServerFailAuth : ExecEnv :=
  ⟨0, false, false, [], sampleSystemMessage, some serverConfig, failingServer,
   fun _ => Except.error sampleAuthErr⟩

/-- Step 0 with the server path enabled; the fetch aborts (cancellation signal)
and the LLM fallback succeeds. -/
def envServerAbortOk : ExecEnv :=
  ⟨0, false, false, [], sampleSystemMessage, some serverConfig, abortingServer,
   fun _ => Except.ok (some sampleOutput)⟩

/-- A later step with no server path; the LLM call throws an abort error. -/
def envPlainAbort : ExecEnv :=
  ⟨1, false, false, [], sampleSystemMessage, none, failingServer,
   fun _ => Except.error sampleAbortErr⟩

/-- A later step with no server path; the LLM call returns a validated output. -/
def envPlainOk : ExecEnv :=
  ⟨1, false, false, [], sampleSystemMessage, none, failingServer,
   fun _ => Except.ok (some sampleOutput)⟩

/-- A history message whose content mixes text and image segments. -/
def mixedMessage : Message :=
  ⟨Role.human,
   MessageContent.parts [ContentPart.text "a", ContentPart.image "u", ContentPart.text "b"]⟩

/-- A storage oracle whose provider store already holds one provider. -/
def initEnvOk : InitEnv := ⟨Except.ok ["p1"], Except.ok (), Except.ok (), Except.ok ()⟩

end Autoemp

namespace Autoemp

/-! ## Helper lemmas -/

theorem list_filter_idem {α : Type} (p : α → Bool) (l : List α) :
    (l.filter p).filter p = l.filter p := by
  induction l with
  | nil => rfl
  | cons a t ih =>
    cases h : p a with
    | false => simp [List.filter_cons, h, ih]
    | true => simp [List.filter_cons, h, ih]

theorem countState_start_only :
    countState ExecutionState.stepStart [startEvent] = 1 := rfl

theorem countTerminal_start_only :
    countTerminal [startEvent] = 0 := rfl

theorem countState_start_ok_start (m : String) :
    countState ExecutionState.stepStart
      [startEvent, ⟨Actor.planner, ExecutionState.stepOk, m⟩] = 1 := rfl

theorem countState_start_ok_ok (m : String) :
    countState ExecutionState.stepOk
      [startEvent, ⟨Actor.planner, ExecutionState.stepOk, m⟩] = 1 := rfl

theorem countState_start_fail_start (m : String) :
    countState ExecutionState.stepStart
      [startEvent, ⟨Actor.planner, ExecutionState.stepFail, m⟩] = 1 := rfl

theorem countTerminal_start_ok (m : String) :
    countTerminal [startEvent, ⟨Actor.planner, ExecutionState.stepOk, m⟩] = 1 := rfl

theorem countTerminal_start_fail (m : String) :
    countTerminal [startEvent, ⟨Actor.planner, ExecutionState.stepFail, m⟩] = 1 := rfl

/-! ## C8 -/

/-- C8: the content sanitizer is idempotent: sanitizing already-sanitized text
is a no-op. -/
theorem filterExternalContent_idempotent :
    ∀ x : String, filterExternalContent (filterExternalContent x) = filterExternalContent x := by
  intro x
  unfold filterExternalContent
  exact congrArg String.mk (list_filter_idem _ x.data)

/-! ## C2 -/

/-- C2: the catch block checks the classifications in the fixed priority order
authentication, bad-request, cancelled, forbidden, unclassified — it agrees
with the first-match walk of the priority list stated by the spec — and the
first matching classification determines the kind of the propagated failure. -/
theorem classification_priority_first_match :
    ∀ e : ErrValue,
      classifyError e = specFirstMatch e
      ∧ outcomeClass (catchHandler e).outcome = classifyError e := by
  intro e
  constructor
  · cases ha : isAuthenticationError e <;> cases hb : isBadRequestError e <;>
      cases hc : isAbortedError e <;> cases hd : isForbiddenError e <;>
      simp [classifyError, specFirstMatch, specClassificationOrder, List.find?, ha, hb, hc, hd]
  · cases h : classifyError e <;> simp [catchHandler, h, outcomeClass]

/-! ## C5 -/

/-- C5: boolean schema fields accept literal booleans and strings equal to
true or false case-insensitively, coerced to the matching boolean, and any
other string raises a validation failure for the field; text fields accept any
string including the empty one; a successful field result is used as-is in the
validated record and a failing boolean field fails the parse. -/
theorem schema_boolean_coercion :
    (∀ b : Bool, parseBoolField (JsonValue.bool b) = Except.ok b)
    ∧ (∀ s : String, toLowerCase s = "true" → parseBoolField (JsonValue.str s) = Except.ok true)
    ∧ (∀ s : String, toLowerCase s = "false" → parseBoolField (JsonValue.str s) = Except.ok false)
    ∧ (∀ s : String, toLowerCase s ≠ "true" → toLowerCase s ≠ "false" →
        parseBoolField (JsonValue.str s) = Except.error "Invalid boolean string")
    ∧ (∀ s : String, parseTextField (JsonValue.str s) = Except.ok s)
    ∧ (∀ (o c n f g : String) (d w : JsonValue) (b₁ b₂ : Bool),
        parseBoolField d = Except.ok b₁ → parseBoolField w = Except.ok b₂ →
        plannerOutputSchema_parse
            ⟨JsonValue.str o, JsonValue.str c, d, JsonValue.str n, JsonValue.str f,
             JsonValue.str g, w⟩
          = Except.ok ⟨o, c, b₁, n, f, g, b₂⟩)
    ∧ (∀ (o c n f g : String) (w : JsonValue) (m : String) (d : JsonValue),
        parseBoolField d = Except.error m →
        plannerOutputSchema_parse
            ⟨JsonValue.str o, JsonValue.str c, d, JsonValue.str n, JsonValue.str f,
             JsonValue.str g, w⟩
          = Except.error m) := by
  refine ⟨fun b => rfl, ?_, ?_, ?_, fun s => rfl, ?_, ?_⟩
  · intro s h
    simp [parseBoolField, h]
  · intro s h
    simp [parseBoolField, h]
  · intro s h1 h2
    simp [parseBoolField, h1, h2]
  · intro o c n f g d w b₁ b₂ hd hw
    simp [plannerOutputSchema_parse, parseTextField, hd, hw]
    rfl
  · intro o c n f g w m d hd
    simp [plannerOutputSchema_parse, parseTextField, hd]
    rfl

/-- C5 witness: concrete coercions and a concrete record parse. -/
theorem schema_boolean_coercion_witness :
    parseBoolField (JsonValue.str "TRUE") = Except.ok true
    ∧ parseBoolField (JsonValue.str "yes") = Except.error "Invalid boolean string"
    ∧ parseTextField (JsonValue.str "") = Except.ok ""
    ∧ plannerOutputSchema_parse
        ⟨JsonValue.str "o", JsonValue.str "c", JsonValue.str "TRUE", JsonValue.str "n",
         JsonValue.str "f", JsonValue.str "r", JsonValue.bool false⟩
      = Except.ok ⟨"o", "c", true, "n", "f", "r", false⟩ :=
  ⟨schema_boolean_coercion.2.1 "TRUE" (by decide),
   schema_boolean_coercion.2.2.2.1 "yes" (by decide) (by decide),
   schema_boolean_coercion.2.2.2.2.1 "",
   schema_boolean_coercion.2.2.2.2.2.1 "o" "c" "n" "f" "r"
     (JsonValue.str "TRUE") (JsonValue.bool false) true false
     (schema_boolean_coercion.2.1 "TRUE" (by decide))
     (schema_boolean_coercion.1 false)⟩

/-! ## C10 -/

/-- C10: ensureDefaultConfiguration resolves normally for every outcome of the
underlying store operations, thrown errors included, and performs no store
write when at least one provider already exists. -/
theorem init_never_rejects_no_writes :
    ∀ env : InitEnv,
      (ensureDefaultConfiguration env).snd = Except.ok ()
      ∧ (∀ ps, env.getAllProvidersResult = Except.ok ps → ps.length > 0 →
          (ensureDefaultConfiguration env).fst = []) := by
  intro env
  constructor
  · cases hg : env.getAllProvidersResult with
    | error e => simp [ensureDefaultConfiguration, ensureDefaultConfigurationBody, hg]
    | ok ps =>
      by_cases hp : ps.length > 0
      · simp [ensureDefaultConfiguration, ensureDefaultConfigurationBody, hg, hp]
      · cases h1 : env.setProviderResult <;> cases h2 : env.setPlannerModelResult <;>
          cases h3 : env.setNavigatorModelResult <;>
          simp [ensureDefaultConfiguration, ensureDefaultConfigurationBody, hg, hp, h1, h2, h3]
  · intro ps hg hp
    simp [ensureDefaultConfiguration, ensureDefaultConfigurationBody, hg, hp]

/-- C10 witness: with one provider configured, the run resolves and writes
nothing. -/
theorem init_never_rejects_no_writes_witness :
    (ensureDefaultConfiguration initEnvOk).snd = Except.ok ()
    ∧ (ensureDefaultConfiguration initEnvOk).fst = [] :=
  ⟨(init_never_rejects_no_writes initEnvOk).1,
   (init_never_rejects_no_writes initEnvOk).2 ["p1"] rfl (by decide)⟩

/-! ## C9 -/

/-- C9: the cleaned result returned by execute differs from the validated
output only in the five free-text fields; the done and web_task booleans are
identical to those of the validated output. -/
theorem clean_preserves_frame :
    ∀ (env : ExecEnv) (o : PlannerOutput),
      (serverPhase env).modelOutput = Except.ok (some o) →
      (execute env).outcome = Except.ok ⟨"planner", some (cleanPlan o), none⟩
      ∧ (cleanPlan o).done = o.done
      ∧ (cleanPlan o).web_task = o.web_task
      ∧ (cleanPlan o).observation = filterExternalContent o.observation
      ∧ (cleanPlan o).challenges = filterExternalContent o.challenges
      ∧ (cleanPlan o).reasoning = filterExternalContent o.reasoning
      ∧ (cleanPlan o).final_answer = filterExternalContent o.final_answer
      ∧ (cleanPlan o).next_steps = filterExternalContent o.next_steps := by
  intro env o h
  refine ⟨?_, rfl, rfl, rfl, rfl, rfl, rfl, rfl⟩
  simp [execute, h]

/-- C9 witness: a plain LLM step returning the sample output. -/
theorem clean_preserves_frame_witness :
    (execute envPlainOk).outcome = Except.ok ⟨"planner", some (cleanPlan sampleOutput), none⟩ :=
  (clean_preserves_frame envPlainOk sampleOutput (by decide)).1

/-! ## C6 -/

/-- C6: a step that produces a validated output emits exactly one step-ok
event, whose message is the sanitized final_answer when done is true and the
sanitized next_steps when done is false. -/
theorem step_ok_message_matches_done :
    ∀ (env : ExecEnv) (o : PlannerOutput),
      (serverPhase env).modelOutput = Except.ok (some o) →
      (execute env).events
        = [startEvent,
           ⟨Actor.planner, ExecutionState.stepOk,
            if o.done then filterExternalContent o.final_answer
            else filterExternalContent o.next_steps⟩]
      ∧ countState ExecutionState.stepOk (execute env).events = 1 := by
  intro env o h
  have he : (execute env).events
      = [startEvent,
         ⟨Actor.planner, ExecutionState.stepOk,
          if o.done then filterExternalContent o.final_answer
          else filterExternalContent o.next_steps⟩] := by
    simp [execute, h, cleanPlan]
  refine ⟨he, ?_⟩
  rw [he]
  exact countState_start_ok_ok _

/-- C6 witness: the sample output is not done, so the step-ok message is the
sanitized next_steps. -/
theorem step_ok_message_matches_done_witness :
    (execute envPlainOk).events
      = [startEvent,
         ⟨Actor.planner, ExecutionState.stepOk,
          if sampleOutput.done then filterExternalContent sampleOutput.final_answer
          else filterExternalContent sampleOutput.next_steps⟩] :=
  (step_ok_message_matches_done envPlainOk sampleOutput (by decide)).1

/-! ## C7 -/

/-- C7: every step outcome that execute returns (as opposed to a thrown typed
failure) has exactly one of its result and error fields populated. -/
theorem outcome_exactly_one_populated :
    ∀ (env : ExecEnv) (out : AgentOutput),
      (execute env).outcome = Except.ok out →
      (out.result.isSome = true ∧ out.error = none)
      ∨ (out.result = none ∧ out.error.isSome = true) := by
  intro env out h
  cases hmo : (serverPhase env).modelOutput with
  | ok oOpt =>
    cases oOpt with
    | some o =>
      simp [execute, hmo] at h
      rw [← h]
      exact Or.inl ⟨rfl, rfl⟩
    | none =>
      simp [execute, hmo, catchHandler, classifyError,
        isAuthenticationError, isBadRequestError, isAbortedError, isForbiddenError] at h
      rw [← h]
      exact Or.inr ⟨rfl, rfl⟩
  | error e =>
    cases hcl : classifyError e with
    | auth => simp [execute, hmo, catchHandler, hcl] at h
    | badRequest => simp [execute, hmo, catchHandler, hcl] at h
    | cancelled => simp [execute, hmo, catchHandler, hcl] at h
    | forbidden => simp [execute, hmo, catchHandler, hcl] at h
    | generic =>
      simp [execute, hmo, catchHandler, hcl] at h
      rw [← h]
      exact Or.inr ⟨rfl, rfl⟩

/-- C7 witness: the successful sample step populates result and not error. -/
theorem outcome_exactly_one_populated_witness :
    ((some (cleanPlan sampleOutput)).isSome = true ∧ (none : Option String) = none)
    ∨ ((some (cleanPlan sampleOutput) : Option PlannerOutput) = none
        ∧ (none : Option String).isSome = true) :=
  outcome_exactly_one_populated envPlainOk ⟨"planner", some (cleanPlan sampleOutput), none⟩
    (by decide)

/-! ## C4 -/

theorem join_cons_str (s : String) (r : List String) :
    String.join (s :: r) = s ++ String.join r := by
  rw [String.join_eq, String.join_eq]
  cases s with
  | mk d => rfl

theorem concatTextParts_go (l : List ContentPart) :
    ∀ acc : String, l.foldl partStep acc = acc ++ String.join (l.filterMap textOfPart) := by
  induction l with
  | nil =>
    intro acc
    show acc = acc ++ String.join []
    rw [show String.join ([] : List String) = "" from rfl, String.append_empty]
  | cons p t ih =>
    intro acc
    cases p with
    | text s =>
      simp only [List.foldl_cons, List.filterMap_cons, textOfPart, partStep, ih,
        join_cons_str, String.append_assoc]
    | image u =>
      simp only [List.foldl_cons, List.filterMap_cons, textOfPart, partStep, ih]

theorem concatTextParts_eq_join (l : List ContentPart) :
    concatTextParts l = String.join (l.filterMap textOfPart) := by
  have h := concatTextParts_go l ""
  simpa [concatTextParts, String.empty_append] using h

/-- C4 counterexample: with vision globally on and off for the planner, a
final message with plain string content is not left unchanged: it is replaced
by a human message with the same text, so a non-human final message changes. -/
theorem vision_strip_rewrap_counterexample :
    assemblePlannerMessages true false sampleSystemMessage
        [sampleSystemMessage, ⟨Role.ai, MessageContent.str "hello"⟩]
      = [sampleSystemMessage, ⟨Role.human, MessageContent.str "hello"⟩]
    ∧ (⟨Role.human, MessageContent.str "hello"⟩ : Message)
        ≠ ⟨Role.ai, MessageContent.str "hello"⟩ := by decide

/-- C4 amended: when the global vision flag is on and the planner vision flag
is off, the final assembled message is replaced by a human message whose
content keeps only the text segments of the original final message,
concatenated in their original order (image segments removed); if the final
message's content is not segmented, its text is carried over unchanged into
the replacing human message. -/
theorem vision_strip_text_only :
    ∀ (sys : Message) (msgs : List Message) (m : Message),
      (sys :: msgs.drop 1).getLast? = some m →
      assemblePlannerMessages true false sys msgs
        = (sys :: msgs.drop 1).dropLast
            ++ [⟨Role.human, MessageContent.str (stripImagesText m.content)⟩]
      ∧ (∀ l, stripImagesText (MessageContent.parts l)
            = String.join (l.filterMap textOfPart))
      ∧ (∀ s, stripImagesText (MessageContent.str s) = s) := by
  intro sys msgs m h
  refine ⟨?_, fun l => ?_, fun s => rfl⟩
  · have h2 : (sys :: msgs.tail).getLast? = some m := by simpa using h
    simp [assemblePlannerMessages, replaceLastWithStripped, h2]
  · simp [stripImagesText, concatTextParts_eq_join]

/-- C4 witness: a mixed text and image final message keeps only the
concatenated text segments. -/
theorem vision_strip_text_only_witness :
    assemblePlannerMessages true false sampleSystemMessage [sampleSystemMessage, mixedMessage]
      = (sampleSystemMessage :: ([sampleSystemMessage, mixedMessage] : List Message).drop 1).dropLast
          ++ [⟨Role.human, MessageContent.str (stripImagesText mixedMessage.content)⟩] :=
  (vision_strip_text_only sampleSystemMessage [sampleSystemMessage, mixedMessage] mixedMessage
    (by decide)).1

/-! ## Reduction helpers for execute -/

theorem execute_of_ok (env : ExecEnv) (o : PlannerOutput)
    (h : (serverPhase env).modelOutput = Except.ok (some o)) :
    (execute env).events
      = [startEvent,
         ⟨Actor.planner, ExecutionState.stepOk,
          if (cleanPlan o).done then (cleanPlan o).final_answer else (cleanPlan o).next_steps⟩]
    ∧ (execute env).outcome = Except.ok ⟨"planner", some (cleanPlan o), none⟩
    ∧ (execute env).serverCalls = (serverPhase env).serverCalls
    ∧ (execute env).invokeCalls = (serverPhase env).invokeCalls := by
  refine ⟨?_, ?_, ?_, ?_⟩ <;> simp [execute, h]

theorem execute_of_none (env : ExecEnv)
    (h : (serverPhase env).modelOutput = Except.ok none) :
    (execute env).events
      = startEvent :: (catchHandler ⟨"Failed to validate planner output",
          false, false, false, false⟩).events
    ∧ (execute env).outcome
        = (catchHandler ⟨"Failed to validate planner output",
            false, false, false, false⟩).outcome
    ∧ (execute env).serverCalls = (serverPhase env).serverCalls
    ∧ (execute env).invokeCalls = (serverPhase env).invokeCalls := by
  refine ⟨?_, ?_, ?_, ?_⟩ <;> simp [execute, h]

theorem execute_of_error (env : ExecEnv) (e : ErrValue)
    (h : (serverPhase env).modelOutput = Except.error e) :
    (execute env).events = startEvent :: (catchHandler e).events
    ∧ (execute env).outcome = (catchHandler e).outcome
    ∧ (execute env).serverCalls = (serverPhase env).serverCalls
    ∧ (execute env).invokeCalls = (serverPhase env).invokeCalls := by
  refine ⟨?_, ?_, ?_, ?_⟩ <;> simp [execute, h]

theorem serverPhase_of_fail (env : ExecEnv) (e0 : ErrValue)
    (hc : serverPlanCondition env = true)
    (hsv : (executeWithServerPlan env.plannerConfig env.server).snd = Except.error e0) :
    (serverPhase env).serverCalls = 1
    ∧ (serverPhase env).invokeCalls = 1
    ∧ (serverPhase env).modelOutput = invokeOutcome env := by
  refine ⟨?_, ?_, ?_⟩ <;> simp [serverPhase, hc, serverPhaseAux, hsv]

/-! ## C1 -/

/-- C1 counterexample: step 0, server planning enabled and configured, the
remote call fails with a network error, and the fallback LLM call throws an
authentication-classified error: the step emits one step-start and zero
terminal events, so it does not emit exactly one terminal event. -/
theorem server_fallback_terminal_counterexample :
    serverPlanCondition envServerFailAuth = true
    ∧ (executeWithServerPlan envServerFailAuth.plannerConfig envServerFailAuth.server).snd
        = Except.error sampleNetErr
    ∧ countState ExecutionState.stepStart (execute envServerFailAuth).events = 1
    ∧ countTerminal (execute envServerFailAuth).events = 0
    ∧ (execute envServerFailAuth).outcome
        = Except.error (AgentError.chatModelAuth "401 unauthorized") := by decide

/-- C1 amended: for every step 0 with server planning enabled and configured,
if the remote call fails for any reason, execute calls the remote path exactly
once and falls back to exactly one direct LLM invocation in the same step,
emits exactly one step-start event, and emits at most one terminal event:
exactly one unless the fallback LLM call itself fails with a classified
(authentication, bad-request, cancelled, forbidden) error, in which case the
typed failure propagates with no terminal event; a successful fallback yields
the cleaned LLM output as the step result. -/
theorem server_fallback_single_start_no_retry :
    ∀ env : ExecEnv,
      serverPlanCondition env = true →
      (∃ e, (executeWithServerPlan env.plannerConfig env.server).snd = Except.error e) →
      (execute env).serverCalls = 1
      ∧ (execute env).invokeCalls = 1
      ∧ countState ExecutionState.stepStart (execute env).events = 1
      ∧ countTerminal (execute env).events ≤ 1
      ∧ (countTerminal (execute env).events = 1 ↔ invokeClassified env = false)
      ∧ (∀ o, invokeOutcome env = Except.ok (some o) →
          (execute env).outcome = Except.ok ⟨"planner", some (cleanPlan o), none⟩) := by
  intro env hc hex
  obtain ⟨e0, hsv⟩ := hex
  obtain ⟨hp1, hp2, hp3⟩ := serverPhase_of_fail env e0 hc hsv
  cases hio : invokeOutcome env with
  | ok oOpt =>
    rw [hio] at hp3
    cases oOpt with
    | some o =>
      obtain ⟨he, ho, hs, hi⟩ := execute_of_ok env o hp3
      refine ⟨hs.trans hp1, hi.trans hp2, ?_, ?_, ?_, ?_⟩
      · rw [he]; exact countState_start_ok_start _
      · rw [he]; exact le_of_eq (countTerminal_start_ok _)
      · rw [he]; simp [countTerminal_start_ok, invokeClassified, hio]
      · intro o2 ho2
        cases Option.some.inj (Except.ok.inj ho2)
        exact ho
    | none =>
      obtain ⟨he, ho, hs, hi⟩ := execute_of_none env hp3
      have hch : (catchHandler ⟨"Failed to validate planner output",
          false, false, false, false⟩).events
          = [⟨Actor.planner, ExecutionState.stepFail,
              "Planning failed: " ++ "Failed to validate planner output"⟩] := by
        simp [catchHandler, classifyError, isAuthenticationError, isBadRequestError,
          isAbortedError, isForbiddenError]
      rw [hch] at he
      refine ⟨hs.trans hp1, hi.trans hp2, ?_, ?_, ?_, ?_⟩
      · rw [he]; exact countState_start_fail_start _
      · rw [he]; exact le_of_eq (countTerminal_start_fail _)
      · rw [he]; simp [countTerminal_start_fail, invokeClassified, hio]
      · intro o2 ho2
        simp at ho2
  | error e =>
    rw [hio] at hp3
    obtain ⟨he, ho, hs, hi⟩ := execute_of_error env e hp3
    refine ⟨hs.trans hp1, hi.trans hp2, ?_, ?_, ?_, ?_⟩
    · cases hcl : classifyError e <;> rw [he] <;>
        simp [catchHandler, hcl, countState_start_only, countState_start_fail_start]
    · cases hcl : classifyError e <;> rw [he] <;>
        simp [catchHandler, hcl, countTerminal_start_only, countTerminal_start_fail]
    · cases hcl : classifyError e <;> rw [he] <;>
        simp [catchHandler, hcl, invokeClassified, hio, countTerminal_start_only,
          countTerminal_start_fail]
    · intro o2 ho2
      simp at ho2

/-- C1 amended witness: the concrete failing-server environment. -/
theorem server_fallback_single_start_no_retry_witness :
    (execute envServerFailAuth).serverCalls = 1
    ∧ (execute envServerFailAuth).invokeCalls = 1 :=
  ⟨(server_fallback_single_start_no_retry envServerFailAuth (by decide)
      ⟨sampleNetErr, by decide⟩).1,
   (server_fallback_single_start_no_retry envServerFailAuth (by decide)
      ⟨sampleNetErr, by decide⟩).2.1⟩

/-! ## C3 -/

/-- C3 counterexample: the remote call fails with an abort/cancellation error,
yet the step does not resolve to a Cancelled failure (the fallback LLM call
succeeds and the step returns a result) and the abort is logged as an
application error by the fallback path. -/
theorem cancelled_step_counterexample :
    envServerAbortOk.server.fetchResult = Except.error sampleAbortErr
    ∧ isAbortedError sampleAbortErr = true
    ∧ (execute envServerAbortOk).outcome
        = Except.ok ⟨"planner", some (cleanPlan sampleOutput), none⟩
    ∧ ((execute envServerAbortOk).logs.filter (fun l => l.level == LogLevel.error)).length
        = 1 := by decide

/-- C3 amended: when the LLM invocation fails with an error classified as
aborted (and matching neither the authentication nor the bad-request pattern),
and the remote path was either not taken or itself failed, the step propagates
a RequestCancelled failure, emits no step-fail event (its whole trace is the
single step-start event), and the error handler neither emits an event nor
logs the error; an abort during the remote call is instead logged as an error
by the fallback path and the LLM is invoked in the same step. -/
theorem llm_abort_cancelled_no_stepfail :
    ∀ (env : ExecEnv) (e : ErrValue),
      invokeOutcome env = Except.error e →
      isAbortedError e = true →
      isAuthenticationError e = false →
      isBadRequestError e = false →
      (serverPlanCondition env = false
        ∨ ∃ e2, (executeWithServerPlan env.plannerConfig env.server).snd = Except.error e2) →
      (execute env).outcome = Except.error (AgentError.requestCancelled e.message)
      ∧ (execute env).events = [startEvent]
      ∧ (catchHandler e).events = []
      ∧ (catchHandler e).logs = [] := by
  intro env e hio hab hau hbr hsrc
  have hcl : classifyError e = ErrorClass.cancelled := by
    simp [classifyError, hau, hbr, hab]
  have hmo : (serverPhase env).modelOutput = Except.error e := by
    rcases hsrc with hcond | ⟨e2, hsv⟩
    · rw [show (serverPhase env).modelOutput = invokeOutcome env by
        simp [serverPhase, hcond], hio]
    · cases hcond : serverPlanCondition env
      · rw [show (serverPhase env).modelOutput = invokeOutcome env by
          simp [serverPhase, hcond], hio]
      · rw [(serverPhase_of_fail env e2 hcond hsv).2.2, hio]
  obtain ⟨he, ho, hs, hi⟩ := execute_of_error env e hmo
  have hch : catchHandler e
      = ⟨[], [], Except.error (AgentError.requestCancelled e.message)⟩ := by
    simp [catchHandler, hcl]
  refine ⟨?_, ?_, ?_, ?_⟩
  · rw [ho, hch]
  · rw [he, hch]
  · rw [hch]
  · rw [hch]

/-- C3 amended witness: a plain LLM step aborted in flight. -/
theorem llm_abort_cancelled_no_stepfail_witness :
    (execute envPlainAbort).outcome
      = Except.error (AgentError.requestCancelled "The operation was aborted")
    ∧ (execute envPlainAbort).events = [startEvent] :=
  ⟨(llm_abort_cancelled_no_stepfail envPlainAbort sampleAbortErr rfl rfl rfl rfl
      (Or.inl (by decide))).1,
   (llm_abort_cancelled_no_stepfail envPlainAbort sampleAbortErr rfl rfl rfl rfl
      (Or.inl (by decide))).2.1⟩


end Autoemp
